import Mathlib

/-!
Verification development for the DISISSOLVES question/answer moderation core.

The definitions below are a shallow embedding of the server code:
`src/server/routes.ts` (the HTTP handlers, modelled as pure functions from an
explicit store and actor to a typed result and a new store) and the
`DatabaseStorage` methods (modelled as list manipulations on an explicit
`Store` record).  Timestamps are natural numbers measured in hours (matching
the `TIMESTAMPDIFF(HOUR, ...)` granularity used by the trending sort), ids are
allocated from a counter, and the MySQL `is_final` int column is kept as a
`Nat` (0 = false).  Fields that no claim touches (priority, attachments,
password hashes, session data) are omitted; email notification is best-effort
fire-and-forget in the source and has no effect on the store, so it is not
modelled.  JavaScript `String.prototype.trim` is modelled structurally as
`jsTrim` so that it evaluates inside the kernel.
-/

inductive Role where
  | admin
  | supervisor
  | user
deriving DecidableEq, Repr

inductive Status where
  | pending
  | approved
  | rejected
deriving DecidableEq, Repr

/-- Questions table row (`shared/schema.ts`), restricted to the moderated fields. -/
structure Question where
  id : Nat
  title : String
  description : String
  category : String
  createdBy : Nat
  createdAt : Nat
  status : Status
  views : Nat
  isFinal : Nat
deriving DecidableEq, Repr

/-- Answers table row (`shared/schema.ts`). -/
structure Answer where
  id : Nat
  questionId : Nat
  answerText : String
  createdBy : Nat
  createdAt : Nat
  status : Status
deriving DecidableEq, Repr

/-- Activity log row (`shared/schema.ts`, `activity_log`). -/
structure ActivityLogEntry where
  userId : Nat
  action : String
deriving DecidableEq, Repr

/-- The content store: questions, answers, the append-only activity log and an
id allocator standing in for the database's key generation. -/
structure Store where
  questions : List Question
  answers : List Answer
  activityLog : List ActivityLogEntry
  nextId : Nat
deriving DecidableEq, Repr

/-- The authenticated caller (`req.user`): id plus role. -/
structure Actor where
  id : Nat
  role : Role
deriving DecidableEq, Repr

/-- Error taxonomy of the moderation engine (spec section 7); each constructor
corresponds to one early-return branch of the route handlers. -/
inductive Err where
  | validationError
  | notFound
  | forbidden
  | locked
  | throttleViolation
  | invalidStatus
  | invalidState
deriving DecidableEq, Repr

/-- Raw body of `POST /api/questions`.  `bodyIsFinal` models the raw
`req.body.isFinal` value read by the handler outside of zod validation
(0 stands for an absent or falsy value). -/
structure QuestionBody where
  title : String
  description : String
  category : String
  bodyIsFinal : Nat
deriving DecidableEq, Repr

inductive SortBy where
  | trending
  | recent
  | views
  | answers
deriving DecidableEq, Repr

/-- Query filters of `DatabaseStorage.getQuestions`. -/
structure QueryFilters where
  category : Option String
  status : Option String
  search : Option String
  userId : Option Nat
deriving DecidableEq, Repr

def statusToString : Status → String
  | Status.pending => "pending"
  | Status.approved => "approved"
  | Status.rejected => "rejected"

/-- The `["pending", "approved", "rejected"].includes(status)` check of the
status-update handlers, returning the parsed enum value. -/
def parseStatus (s : String) : Option Status :=
  if s = "pending" then some Status.pending
  else if s = "approved" then some Status.approved
  else if s = "rejected" then some Status.rejected
  else none

/-- Category validation performed by `insertQuestionSchema.parse` (the zod
schema derived from the closed `category` enum). -/
def validCategory (c : String) : Prop :=
  c = "ibml" ∨ c = "softtrac" ∨ c = "omniscan"

instance (c : String) : Decidable (validCategory c) := by
  unfold validCategory
  exact inferInstance

/-- JavaScript `String.prototype.trim`: strip whitespace from both ends. -/
def jsTrim (s : String) : String :=
  String.mk (((s.data.dropWhile Char.isWhitespace).reverse.dropWhile
    Char.isWhitespace).reverse)

/-- The WHERE conditions assembled by `DatabaseStorage.getQuestions` from the
optional filters (category, status, userId, LIKE search on title or
description). -/
def matchesFilters (f : QueryFilters) (q : Question) : Bool :=
  (f.category.all fun c => decide (q.category = c)) &&
  (f.status.all fun st => decide (statusToString q.status = st)) &&
  (f.userId.all fun u => decide (q.createdBy = u)) &&
  (f.search.all fun t =>
    q.title.containsSubstr t.toSubstring || q.description.containsSubstr t.toSubstring)

/-- `COUNT(answers.id)` under the left join
`answers.questionId = q.id AND answers.status = 'approved'`. -/
def approvedAnswerCount (s : Store) (qid : Nat) : Nat :=
  (s.answers.filter fun a => decide (a.questionId = qid ∧ a.status = Status.approved)).length

/-- The trending ORDER BY expression of `DatabaseStorage.getQuestions`:
`(views + COUNT(answers.id) * 2) / (TIMESTAMPDIFF(HOUR, createdAt, NOW()) + 1)`,
as exact rational arithmetic. -/
def trendScore (views ac hours : Nat) : ℚ :=
  ((views : ℚ) + (ac : ℚ) * 2) / ((hours : ℚ) + 1)

/-- Trending score of a stored question at wall-clock hour `now`. -/
def questionScore (s : Store) (now : Nat) (q : Question) : ℚ :=
  trendScore q.views (approvedAnswerCount s q.id) (now - q.createdAt)

/-- `DatabaseStorage.getQuestions`: filter, sort by the selected comparator,
then apply OFFSET and LIMIT.  The SQL ORDER BY has a single key and no
deterministic tie-break; the model uses a stable sort on that single key. -/
def getQuestions (f : QueryFilters) (sb : SortBy) (lim off now : Nat) (s : Store) :
    List Question :=
  let rows := s.questions.filter fun q => matchesFilters f q
  let sorted :=
    match sb with
    | SortBy.views => rows.insertionSort fun (a b : Question) => b.views ≤ a.views
    | SortBy.answers =>
      rows.insertionSort fun (a b : Question) => approvedAnswerCount s b.id ≤ approvedAnswerCount s a.id
    | SortBy.trending =>
      rows.insertionSort fun (a b : Question) => questionScore s now b ≤ questionScore s now a
    | SortBy.recent => rows.insertionSort fun (a b : Question) => b.createdAt ≤ a.createdAt
  (sorted.drop off).take lim

/-- Filters used by the supervisor throttle check in `POST /api/questions`:
`{ userId, status: "pending", limit: 1 }`. -/
def pendingFilter (uid : Nat) : QueryFilters :=
  { category := none, status := some "pending", search := none, userId := some uid }

/-- `DatabaseStorage.logActivity`: append one row to the activity log. -/
def logActivity (s : Store) (userId : Nat) (action : String) : Store :=
  { s with activityLog := s.activityLog ++ [{ userId := userId, action := action }] }

/-- `POST /api/questions`: validate, apply the supervisor one-pending-question
throttle, then create the question.  Status is `approved` for admins and
`pending` otherwise; `isFinal` is `req.body.isFinal || (admin ? 1 : 0)`. -/
def submitQuestion (actor : Actor) (body : QuestionBody) (now : Nat) (s : Store) :
    Except Err Question × Store :=
  if validCategory body.category then
    if actor.role = Role.supervisor ∧
        0 < (getQuestions (pendingFilter actor.id) SortBy.recent 1 0 now s).length then
      (Except.error Err.throttleViolation, s)
    else
      let q : Question :=
        { id := s.nextId
          title := body.title
          description := body.description
          category := body.category
          createdBy := actor.id
          createdAt := now
          status := if actor.role = Role.admin then Status.approved else Status.pending
          views := 0
          isFinal :=
            if body.bodyIsFinal ≠ 0 then body.bodyIsFinal
            else if actor.role = Role.admin then 1 else 0 }
      (Except.ok q,
        logActivity { s with questions := s.questions ++ [q], nextId := s.nextId + 1 }
          actor.id ("Created question: " ++ body.title))
  else (Except.error Err.validationError, s)

/-- `PATCH /api/questions/:id/status`: role gate admin or supervisor, closed
status enum, unrestricted transition, then update and log. -/
def setQuestionStatus (actor : Actor) (qid : Nat) (newStatus : String) (s : Store) :
    Except Err Unit × Store :=
  if actor.role = Role.admin ∨ actor.role = Role.supervisor then
    match parseStatus newStatus with
    | none => (Except.error Err.invalidStatus, s)
    | some st =>
      (Except.ok (),
        logActivity
          { s with questions := s.questions.map fun q =>
              if q.id = qid then { q with status := st } else q }
          actor.id ("Updated question status to: " ++ newStatus))
  else (Except.error Err.forbidden, s)

/-- `GET /api/questions/:id`: read the snapshot first, then increment the view
counter; the snapshot is what the caller receives. -/
def viewQuestion (qid : Nat) (s : Store) : Except Err Question × Store :=
  match s.questions.find? (fun r => decide (r.id = qid)) with
  | none => (Except.error Err.notFound, s)
  | some q =>
    (Except.ok q,
      { s with questions := s.questions.map fun r =>
          if r.id = qid then { r with views := r.views + 1 } else r })

/-- `DELETE /api/questions/:id`: admin only, question must exist and be
`rejected`; cascade-deletes the answers, then the question, then logs. -/
def deleteQuestion (actor : Actor) (qid : Nat) (s : Store) : Except Err Unit × Store :=
  if actor.role = Role.admin then
    match s.questions.find? (fun r => decide (r.id = qid)) with
    | none => (Except.error Err.notFound, s)
    | some q =>
      if q.status = Status.rejected then
        (Except.ok (),
          logActivity
            { s with
              answers := s.answers.filter fun a => decide (a.questionId ≠ qid)
              questions := s.questions.filter fun r => decide (r.id ≠ qid) }
            actor.id ("Deleted rejected question: " ++ q.title))
      else (Except.error Err.invalidState, s)
  else (Except.error Err.forbidden, s)

/-- `POST /api/questions/:id/answers` (the ordinary answer path), with the
source's check order: non-blank text, question exists, `user` role forbidden,
question not final; then create (admins approved, supervisors pending) and
log. -/
def submitAnswer (actor : Actor) (qid : Nat) (answerText : String) (now : Nat) (s : Store) :
    Except Err Answer × Store :=
  if (jsTrim answerText).length = 0 then (Except.error Err.validationError, s)
  else
    match s.questions.find? (fun r => decide (r.id = qid)) with
    | none => (Except.error Err.notFound, s)
    | some q =>
      if actor.role = Role.user then (Except.error Err.forbidden, s)
      else if q.isFinal ≠ 0 then (Except.error Err.locked, s)
      else
        let a : Answer :=
          { id := s.nextId
            questionId := qid
            answerText := jsTrim answerText
            createdBy := actor.id
            createdAt := now
            status := if actor.role = Role.admin then Status.approved else Status.pending }
        (Except.ok a,
          logActivity { s with answers := s.answers ++ [a], nextId := s.nextId + 1 }
            actor.id "Answered question")

/-- `PATCH /api/answers/:id/status`: admin only, closed status enum. -/
def setAnswerStatus (actor : Actor) (aid : Nat) (newStatus : String) (s : Store) :
    Except Err Unit × Store :=
  if actor.role = Role.admin then
    match parseStatus newStatus with
    | none => (Except.error Err.invalidStatus, s)
    | some st =>
      (Except.ok (),
        logActivity
          { s with answers := s.answers.map fun a =>
              if a.id = aid then { a with status := st } else a }
          actor.id ("Updated answer status to: " ++ newStatus))
  else (Except.error Err.forbidden, s)

/-- `POST /api/answers` (the admin combined question+answer path): question
must exist, only admins may post directly; creates an approved answer and
marks the question final. -/
def postAnswerDirect (actor : Actor) (qid : Nat) (answerText : String) (now : Nat) (s : Store) :
    Except Err Answer × Store :=
  match s.questions.find? (fun r => decide (r.id = qid)) with
  | none => (Except.error Err.notFound, s)
  | some q =>
    if actor.role = Role.admin then
      let a : Answer :=
        { id := s.nextId
          questionId := qid
          answerText := answerText
          createdBy := actor.id
          createdAt := now
          status := Status.approved }
      (Except.ok a,
        logActivity
          { s with
            answers := s.answers ++ [a]
            nextId := s.nextId + 1
            questions := s.questions.map fun r =>
              if r.id = qid then { r with isFinal := 1 } else r }
          actor.id ("Created answer for question: " ++ q.title))
    else (Except.error Err.forbidden, s)

/-- The exposed operations quantified over by the isFinal permanence claim. -/
inductive Op where
  | submitQ : Actor → QuestionBody → Nat → Op
  | setQStatus : Actor → Nat → String → Op
  | setAStatus : Actor → Nat → String → Op
  | postDirect : Actor → Nat → String → Nat → Op
  | view : Nat → Op
deriving DecidableEq, Repr

def applyOp (s : Store) (op : Op) : Store :=
  match op with
  | Op.submitQ a b now => (submitQuestion a b now s).2
  | Op.setQStatus a q st => (setQuestionStatus a q st s).2
  | Op.setAStatus a i st => (setAnswerStatus a i st s).2
  | Op.postDirect a q t now => (postAnswerDirect a q t now s).2
  | Op.view q => (viewQuestion q s).2

def runOps (s : Store) (ops : List Op) : Store :=
  ops.foldl applyOp s

/-- All-or-nothing behaviour of one operation run against store `s`: an error
leaves the store untouched, success appends an activity-log entry. -/
def atomicOn {A : Type} (s : Store) (r : Except Err A × Store) : Prop :=
  (∀ e, r.1 = Except.error e → r.2 = s) ∧
  (∀ v, r.1 = Except.ok v → ∃ entry, r.2.activityLog = s.activityLog ++ [entry])


/- Concrete data used by witnesses and counterexamples. -/

def adminA : Actor := { id := 1, role := Role.admin }

def supA : Actor := { id := 2, role := Role.supervisor }

def userA : Actor := { id := 3, role := Role.user }

def bodyIbml : QuestionBody :=
  { title := "Scanner jam", description := "feed tray jams", category := "ibml",
    bodyIsFinal := 0 }

def emptyStore : Store := { questions := [], answers := [], activityLog := [], nextId := 0 }

def qPending0 : Question :=
  { id := 0, title := "Jam on feed tray", description := "paper jam", category := "softtrac",
    createdBy := 2, createdAt := 0, status := Status.pending, views := 0, isFinal := 0 }

def storePending : Store :=
  { questions := [qPending0], answers := [], activityLog := [], nextId := 1 }

def qFinal0 : Question :=
  { id := 0, title := "Error 42", description := "scanner error", category := "ibml",
    createdBy := 1, createdAt := 0, status := Status.approved, views := 7, isFinal := 1 }

def storeFinal : Store :=
  { questions := [qFinal0], answers := [], activityLog := [], nextId := 1 }

def qRej0 : Question :=
  { id := 0, title := "Obsolete", description := "old", category := "omniscan",
    createdBy := 2, createdAt := 0, status := Status.rejected, views := 1, isFinal := 0 }

def ansRej0 : Answer :=
  { id := 1, questionId := 0, answerText := "try restarting", createdBy := 1,
    createdAt := 1, status := Status.approved }

def storeRejected : Store :=
  { questions := [qRej0], answers := [ansRej0], activityLog := [], nextId := 2 }

def noFilters : QueryFilters :=
  { category := none, status := none, search := none, userId := none }

def opsC9 : List Op :=
  [Op.view 0, Op.setQStatus adminA 0 "rejected"]

def qFinalAfter : Question :=
  { id := 0, title := "Error 42", description := "scanner error", category := "ibml",
    createdBy := 1, createdAt := 0, status := Status.rejected, views := 8, isFinal := 1 }

/-! ### Helper lemmas -/

theorem statusToString_pending_iff (st : Status) :
    statusToString st = "pending" ↔ st = Status.pending := by
  cases st <;> simp only [statusToString] <;> decide

theorem matchesFilters_pending_iff (uid : Nat) (q : Question) :
    matchesFilters (pendingFilter uid) q = true ↔
    (q.createdBy = uid ∧ q.status = Status.pending) := by
  simp only [matchesFilters, pendingFilter, Option.all_none, Option.all_some,
    Bool.and_true, Bool.true_and, Bool.and_eq_true, decide_eq_true_eq]
  rw [statusToString_pending_iff]
  tauto

theorem pending_len_iff (uid now : Nat) (s : Store) :
    0 < (getQuestions (pendingFilter uid) SortBy.recent 1 0 now s).length ↔
    ∃ q ∈ s.questions, q.createdBy = uid ∧ q.status = Status.pending := by
  have hdef : getQuestions (pendingFilter uid) SortBy.recent 1 0 now s =
      (((s.questions.filter fun q => matchesFilters (pendingFilter uid) q).insertionSort
        fun (a b : Question) => b.createdAt ≤ a.createdAt).drop 0).take 1 := rfl
  rw [hdef, List.drop_zero, List.length_take]
  rw [Nat.lt_min]
  simp only [Nat.zero_lt_one, true_and]
  rw [List.length_insertionSort, List.length_pos_iff_exists_mem]
  constructor
  · rintro ⟨q, hq⟩
    obtain ⟨hmem, hp⟩ := List.mem_filter.mp hq
    exact ⟨q, hmem, (matchesFilters_pending_iff uid q).mp hp⟩
  · rintro ⟨q, hmem, hp⟩
    exact ⟨q, List.mem_filter.mpr ⟨hmem, (matchesFilters_pending_iff uid q).mpr hp⟩⟩

theorem atomicOn_error {A : Type} (s : Store) (e : Err) :
    atomicOn s ((Except.error e : Except Err A), s) := by
  constructor
  · intro _ _
    rfl
  · intro v h
    exact absurd h (by simp)

theorem atomicOn_okLog {A : Type} (s : Store) (v : A) (s2 : Store) (entry : ActivityLogEntry)
    (h : s2.activityLog = s.activityLog ++ [entry]) :
    atomicOn s (Except.ok v, s2) := by
  constructor
  · intro e he
    exact absurd he (by simp)
  · intro _ _
    exact ⟨entry, h⟩

theorem submitQuestion_atomic (actor : Actor) (body : QuestionBody) (now : Nat) (s : Store) :
    atomicOn s (submitQuestion actor body now s) := by
  unfold submitQuestion
  split
  · split
    · exact atomicOn_error s Err.throttleViolation
    · exact atomicOn_okLog s _ _ _ rfl
  · exact atomicOn_error s Err.validationError

theorem setQuestionStatus_atomic (actor : Actor) (qid : Nat) (st : String) (s : Store) :
    atomicOn s (setQuestionStatus actor qid st s) := by
  unfold setQuestionStatus
  split
  · split
    · exact atomicOn_error s Err.invalidStatus
    · exact atomicOn_okLog s _ _ _ rfl
  · exact atomicOn_error s Err.forbidden

theorem deleteQuestion_atomic (actor : Actor) (qid : Nat) (s : Store) :
    atomicOn s (deleteQuestion actor qid s) := by
  unfold deleteQuestion
  split
  · split
    · exact atomicOn_error s Err.notFound
    · split
      · exact atomicOn_okLog s _ _ _ rfl
      · exact atomicOn_error s Err.invalidState
  · exact atomicOn_error s Err.forbidden

theorem submitAnswer_atomic (actor : Actor) (qid : Nat) (text : String) (now : Nat) (s : Store) :
    atomicOn s (submitAnswer actor qid text now s) := by
  unfold submitAnswer
  split
  · exact atomicOn_error s Err.validationError
  · split
    · exact atomicOn_error s Err.notFound
    · split
      · exact atomicOn_error s Err.forbidden
      · split
        · exact atomicOn_error s Err.locked
        · exact atomicOn_okLog s _ _ _ rfl

theorem setAnswerStatus_atomic (actor : Actor) (aid : Nat) (st : String) (s : Store) :
    atomicOn s (setAnswerStatus actor aid st s) := by
  unfold setAnswerStatus
  split
  · split
    · exact atomicOn_error s Err.invalidStatus
    · exact atomicOn_okLog s _ _ _ rfl
  · exact atomicOn_error s Err.forbidden

theorem applyOp_final_step (s : Store) (op : Op) (qid : Nat)
    (hlt : qid < s.nextId)
    (h : ∀ q ∈ s.questions, q.id = qid → q.isFinal ≠ 0) :
    qid < (applyOp s op).nextId ∧
    (∀ q ∈ (applyOp s op).questions, q.id = qid → q.isFinal ≠ 0) := by
  cases op with
  | submitQ a b now =>
    simp only [applyOp]
    unfold submitQuestion
    split
    · split
      · exact ⟨hlt, h⟩
      · simp only [logActivity]
        refine ⟨Nat.lt_succ_of_lt hlt, ?_⟩
        intro q hq hid
        rcases List.mem_append.mp hq with hq | hq
        · exact h q hq hid
        · rw [List.mem_singleton] at hq
          subst hq
          simp only [] at hid
          omega
    · exact ⟨hlt, h⟩
  | setQStatus a i st =>
    simp only [applyOp]
    unfold setQuestionStatus
    split
    · split
      · exact ⟨hlt, h⟩
      · simp only [logActivity]
        refine ⟨hlt, ?_⟩
        intro q hq hid
        obtain ⟨q0, hq0, hfq⟩ := List.mem_map.mp hq
        by_cases hi : q0.id = i
        · rw [if_pos hi] at hfq
          subst hfq
          exact h q0 hq0 hid
        · rw [if_neg hi] at hfq
          subst hfq
          exact h q0 hq0 hid
    · exact ⟨hlt, h⟩
  | setAStatus a i st =>
    simp only [applyOp]
    unfold setAnswerStatus
    split
    · split
      · exact ⟨hlt, h⟩
      · exact ⟨hlt, h⟩
    · exact ⟨hlt, h⟩
  | postDirect a i t now =>
    simp only [applyOp]
    unfold postAnswerDirect
    split
    · exact ⟨hlt, h⟩
    · split
      · simp only [logActivity]
        refine ⟨Nat.lt_succ_of_lt hlt, ?_⟩
        intro q hq hid
        obtain ⟨q0, hq0, hfq⟩ := List.mem_map.mp hq
        by_cases hi : q0.id = i
        · rw [if_pos hi] at hfq
          subst hfq
          simp
        · rw [if_neg hi] at hfq
          subst hfq
          exact h q0 hq0 hid
      · exact ⟨hlt, h⟩
  | view i =>
    simp only [applyOp]
    unfold viewQuestion
    split
    · exact ⟨hlt, h⟩
    · refine ⟨hlt, ?_⟩
      intro q hq hid
      obtain ⟨q0, hq0, hfq⟩ := List.mem_map.mp hq
      by_cases hi : q0.id = i
      · rw [if_pos hi] at hfq
        subst hfq
        exact h q0 hq0 hid
      · rw [if_neg hi] at hfq
        subst hfq
        exact h q0 hq0 hid

theorem find?_views_update (l : List Question) (qid : Nat) (q : Question)
    (h : l.find? (fun r => decide (r.id = qid)) = some q) :
    (l.map fun r => if r.id = qid then { r with views := r.views + 1 } else r).find?
      (fun r => decide (r.id = qid)) = some { q with views := q.views + 1 } := by
  induction l with
  | nil => simp at h
  | cons a t ih =>
    by_cases ha : a.id = qid
    · rw [List.find?_cons_of_pos _ (by simpa using ha)] at h
      injection h with h
      subst h
      simp only [List.map_cons, if_pos ha]
      exact List.find?_cons_of_pos _ (by simpa using ha)
    · rw [List.find?_cons_of_neg _ (by simpa using ha)] at h
      simp only [List.map_cons, if_neg ha]
      rw [List.find?_cons_of_neg _ (by simpa using ha)]
      exact ih h

/-! ### Claim theorems -/

/-- C1 (amended): a created question's `isFinal` flag is truthy exactly when
the raw request body carries a truthy `isFinal` or the caller is an admin.  In
particular every ordinary (non-combined) admin submission is already final,
and a non-admin submission is final whenever the raw body smuggles a truthy
`isFinal` past validation. -/
theorem submitQuestion_isFinal_rule (actor : Actor) (body : QuestionBody) (now : Nat)
    (s : Store) (q : Question)
    (hok : (submitQuestion actor body now s).1 = Except.ok q) :
    q.isFinal ≠ 0 ↔ (body.bodyIsFinal ≠ 0 ∨ actor.role = Role.admin) := by
  unfold submitQuestion at hok
  by_cases hcat : validCategory body.category
  · rw [if_pos hcat] at hok
    by_cases hth : actor.role = Role.supervisor ∧
        0 < (getQuestions (pendingFilter actor.id) SortBy.recent 1 0 now s).length
    · rw [if_pos hth] at hok
      simp at hok
    · rw [if_neg hth] at hok
      simp only [Except.ok.injEq] at hok
      subst hok
      by_cases hb : body.bodyIsFinal ≠ 0
      · simp [hb]
      · by_cases ha : actor.role = Role.admin
        · simp [hb, ha]
        · simp [hb, ha]
  · rw [if_neg hcat] at hok
    simp at hok

def qUser0 : Question :=
  { id := 0, title := "Scanner jam", description := "feed tray jams", category := "ibml",
    createdBy := 3, createdAt := 0, status := Status.pending, views := 0, isFinal := 0 }

/-- C1 witness: a plain user submission with no raw `isFinal` creates a
non-final question, matching the amended rule. -/
theorem submitQuestion_isFinal_rule_witness :
    (submitQuestion userA bodyIbml 0 emptyStore).1 = Except.ok qUser0 ∧
    (qUser0.isFinal ≠ 0 ↔ (bodyIbml.bodyIsFinal ≠ 0 ∨ userA.role = Role.admin)) :=
  ⟨rfl, submitQuestion_isFinal_rule userA bodyIbml 0 emptyStore qUser0 rfl⟩

def qAdmin0 : Question :=
  { id := 0, title := "Scanner jam", description := "feed tray jams", category := "ibml",
    createdBy := 1, createdAt := 0, status := Status.approved, views := 0, isFinal := 1 }

/-- C1 counterexample: an ordinary, non-combined admin submission (the raw
body carries no `isFinal`, and no answer is posted) already yields
`isFinal = 1`, refuting the claim that every submission outside the combined
admin question+answer path yields `isFinal = false`. -/
theorem submitQuestion_admin_ordinary_isFinal :
    bodyIbml.bodyIsFinal = 0 ∧
    (submitQuestion adminA bodyIbml 0 emptyStore).1 = Except.ok qAdmin0 ∧
    qAdmin0.isFinal = 1 :=
  ⟨rfl, rfl, rfl⟩

/-- C2 (confirmed): a supervisor with a pending question is throttled with
`ThrottleViolation` and the store is unchanged; once the pending question is
moved to `approved` or `rejected` by a moderator, a fresh submission by the
same supervisor succeeds; admins and plain users are never throttled. -/
theorem submitQuestion_supervisor_throttle :
    (∀ (actor : Actor) (body : QuestionBody) (now : Nat) (s : Store),
      actor.role = Role.supervisor → validCategory body.category →
      (∃ q ∈ s.questions, q.createdBy = actor.id ∧ q.status = Status.pending) →
      submitQuestion actor body now s = (Except.error Err.throttleViolation, s)) ∧
    (∀ (actor mod : Actor) (body : QuestionBody) (now : Nat) (s : Store) (q0 : Question)
      (newStatus : String),
      actor.role = Role.supervisor → validCategory body.category →
      (mod.role = Role.admin ∨ mod.role = Role.supervisor) →
      (newStatus = "approved" ∨ newStatus = "rejected") →
      (∀ q ∈ s.questions, q.createdBy = actor.id → q.status = Status.pending → q.id = q0.id) →
      ∃ q, (submitQuestion actor body now
              (setQuestionStatus mod q0.id newStatus s).2).1 = Except.ok q) ∧
    (∀ (actor : Actor) (body : QuestionBody) (now : Nat) (s : Store),
      (actor.role = Role.admin ∨ actor.role = Role.user) →
      (submitQuestion actor body now s).1 ≠ Except.error Err.throttleViolation) := by
  refine ⟨?_, ?_, ?_⟩
  · intro actor body now s hrole hcat hex
    unfold submitQuestion
    rw [if_pos hcat, if_pos ⟨hrole, (pending_len_iff actor.id now s).mpr hex⟩]
  · intro actor mod body now s q0 newStatus hrole hcat hmod hns hall
    have hs2 : (setQuestionStatus mod q0.id newStatus s).2.questions =
        s.questions.map fun q => if q.id = q0.id then
          { q with status := if newStatus = "approved" then Status.approved
                             else Status.rejected } else q := by
      unfold setQuestionStatus
      rw [if_pos hmod]
      rcases hns with h | h <;> subst h <;> simp [parseStatus, logActivity]
    set s2 := (setQuestionStatus mod q0.id newStatus s).2 with hs2def
    have hnopending : ¬ ∃ q ∈ s2.questions, q.createdBy = actor.id ∧
        q.status = Status.pending := by
      rintro ⟨q', hq', hcb, hstp⟩
      rw [hs2] at hq'
      obtain ⟨q, hq, hfq⟩ := List.mem_map.mp hq'
      by_cases hi : q.id = q0.id
      · rw [if_pos hi] at hfq
        subst hfq
        simp only [] at hstp
        rcases hns with h | h <;> subst h <;> simp_all
      · rw [if_neg hi] at hfq
        subst hfq
        exact hi (hall q hq hcb hstp)
    unfold submitQuestion
    rw [if_pos hcat]
    rw [if_neg (fun hc => hnopending ((pending_len_iff actor.id now s2).mp hc.2))]
    exact ⟨_, rfl⟩
  · intro actor body now s hrole
    unfold submitQuestion
    split
    · split
      · rename_i hth
        rcases hrole with h | h <;> rw [h] at hth <;> simp at hth
      · simp
    · simp

/-- C2 witness: the concrete supervisor with a pending question is throttled;
after an admin rejects that question a new submission succeeds; the plain user
is never throttled on the same store. -/
theorem submitQuestion_supervisor_throttle_witness :
    submitQuestion supA bodyIbml 5 storePending =
      (Except.error Err.throttleViolation, storePending) :=
  submitQuestion_supervisor_throttle.1 supA bodyIbml 5 storePending rfl (by decide)
    (by decide)

/-- C3 (amended): for a `user`-role actor and an existing question,
`submitAnswer` with a non-blank answer text fails with `Forbidden` regardless
of the question's status and `isFinal` flag; with a blank text it fails with
`ValidationError` instead (the text check runs before the role gate); in both
cases the store is unchanged, so no answer is created. -/
theorem submitAnswer_user_forbidden (actor : Actor) (qid now : Nat) (text : String)
    (s : Store) (q : Question)
    (hrole : actor.role = Role.user)
    (hfind : s.questions.find? (fun r => decide (r.id = qid)) = some q) :
    ((jsTrim text).length ≠ 0 →
      submitAnswer actor qid text now s = (Except.error Err.forbidden, s)) ∧
    ((jsTrim text).length = 0 →
      submitAnswer actor qid text now s = (Except.error Err.validationError, s)) := by
  constructor
  · intro ht
    unfold submitAnswer
    rw [if_neg ht]
    simp only [hfind]
    rw [if_pos hrole]
  · intro ht
    unfold submitAnswer
    rw [if_pos ht]

/-- C3 witness: the concrete user is refused with `Forbidden` on a pending,
non-final question. -/
theorem submitAnswer_user_forbidden_witness :
    submitAnswer userA 0 "help" 5 storePending = (Except.error Err.forbidden, storePending) :=
  (submitAnswer_user_forbidden userA 0 5 "help" storePending qPending0 rfl rfl).1 (by decide)

/-- C3 counterexample: a `user`-role call on an existing question with a blank
answer text fails with `ValidationError`, not `Forbidden`, refuting the
"regardless of the submitted answer text" part of the claim. -/
theorem submitAnswer_user_blank_not_forbidden :
    submitAnswer userA 0 "" 5 storePending = (Except.error Err.validationError, storePending) ∧
    Err.validationError ≠ Err.forbidden :=
  ⟨rfl, by decide⟩

/-- C4 (amended): `submitAnswer` with a non-blank text on an existing question
with `isFinal ≠ 0` fails for every role and leaves the store unchanged, but
the error kind depends on the role: `Locked` for admins and supervisors, and
`Forbidden` for users, because the role gate runs before the `isFinal`
check. -/
theorem submitAnswer_final_locked (actor : Actor) (qid now : Nat) (text : String)
    (s : Store) (q : Question)
    (hfind : s.questions.find? (fun r => decide (r.id = qid)) = some q)
    (hfin : q.isFinal ≠ 0)
    (ht : (jsTrim text).length ≠ 0) :
    (actor.role ≠ Role.user →
      submitAnswer actor qid text now s = (Except.error Err.locked, s)) ∧
    (actor.role = Role.user →
      submitAnswer actor qid text now s = (Except.error Err.forbidden, s)) := by
  constructor
  · intro hru
    unfold submitAnswer
    rw [if_neg ht]
    simp only [hfind]
    rw [if_neg hru, if_pos hfin]
  · intro hru
    unfold submitAnswer
    rw [if_neg ht]
    simp only [hfind]
    rw [if_pos hru]

/-- C4 witness: the admin is refused with `Locked` on the concrete final
question via the ordinary answer path. -/
theorem submitAnswer_final_locked_witness :
    submitAnswer adminA 0 "more help" 5 storeFinal = (Except.error Err.locked, storeFinal) :=
  (submitAnswer_final_locked adminA 0 5 "more help" storeFinal qFinal0 rfl (by decide)
    (by decide)).1 (by decide)

/-- C4 counterexample: on a final question a `user`-role caller fails with
`Forbidden`, not `Locked`/`InvalidState`, refuting the "for every actor role"
part of the claim. -/
theorem submitAnswer_final_user_not_locked :
    storeFinal.questions.find? (fun r => decide (r.id = 0)) = some qFinal0 ∧
    qFinal0.isFinal ≠ 0 ∧
    submitAnswer userA 0 "help" 5 storeFinal = (Except.error Err.forbidden, storeFinal) ∧
    Err.forbidden ≠ Err.locked :=
  ⟨rfl, by decide, rfl, by decide⟩

/-- C5 (confirmed): for an admin and an existing question, `deleteQuestion`
succeeds exactly when the question's status is `rejected` — on success no
answer referencing the deleted id remains and the question itself is gone; on
any other status it fails with `InvalidState` and the store (questions and
answers alike) is unchanged. -/
theorem deleteQuestion_rejected_only (actor : Actor) (qid : Nat) (s : Store) (q : Question)
    (hrole : actor.role = Role.admin)
    (hfind : s.questions.find? (fun r => decide (r.id = qid)) = some q) :
    (q.status = Status.rejected →
      (deleteQuestion actor qid s).1 = Except.ok () ∧
      (∀ a ∈ (deleteQuestion actor qid s).2.answers, a.questionId ≠ qid) ∧
      (∀ r ∈ (deleteQuestion actor qid s).2.questions, r.id ≠ qid)) ∧
    (q.status ≠ Status.rejected →
      deleteQuestion actor qid s = (Except.error Err.invalidState, s)) := by
  have hdel : deleteQuestion actor qid s =
      (if q.status = Status.rejected then
        (Except.ok (),
          logActivity
            { s with
              answers := s.answers.filter fun a => decide (a.questionId ≠ qid)
              questions := s.questions.filter fun r => decide (r.id ≠ qid) }
            actor.id ("Deleted rejected question: " ++ q.title))
      else (Except.error Err.invalidState, s)) := by
    unfold deleteQuestion
    rw [if_pos hrole]
    simp only [hfind]
  constructor
  · intro hst
    rw [hdel, if_pos hst]
    refine ⟨rfl, ?_, ?_⟩
    · intro a ha
      simp only [logActivity] at ha
      have := (List.mem_filter.mp ha).2
      simpa using this
    · intro r hr
      simp only [logActivity] at hr
      have := (List.mem_filter.mp hr).2
      simpa using this
  · intro hst
    rw [hdel, if_neg hst]

/-- C5 witness: deleting the concrete rejected question succeeds and its
answer is cascade-deleted; the same question while still approved cannot be
deleted. -/
theorem deleteQuestion_rejected_only_witness :
    (deleteQuestion adminA 0 storeRejected).1 = Except.ok () ∧
    ansRej0 ∈ storeRejected.answers ∧ ansRej0.questionId = 0 ∧
    (deleteQuestion adminA 0 storeRejected).2.answers = [] :=
  ⟨((deleteQuestion_rejected_only adminA 0 storeRejected qRej0 rfl rfl).1 (by decide)).1,
    by decide, rfl, rfl⟩

/-- C6 (amended): the trending listing orders whatever questions pass the
explicitly supplied filters by the score
`(views + approvedAnswerCount * 2) / (hoursSinceCreated + 1)` descending
(ties in unspecified order — the ORDER BY has a single key and no `createdAt`
tie-break), and every returned question comes from the store and matches the
supplied filters; the trending sort itself applies no `status = approved`
filter. -/
theorem getQuestions_trending_spec (f : QueryFilters) (lim off now : Nat) (s : Store) :
    List.Sorted (fun a b => questionScore s now b ≤ questionScore s now a)
      (getQuestions f SortBy.trending lim off now s) ∧
    ∀ q ∈ getQuestions f SortBy.trending lim off now s,
      q ∈ s.questions ∧ matchesFilters f q = true := by
  have hdef : getQuestions f SortBy.trending lim off now s =
      (((s.questions.filter fun q => matchesFilters f q).insertionSort
        fun (a b : Question) => questionScore s now b ≤ questionScore s now a).drop
          off).take lim := rfl
  constructor
  · rw [hdef]
    haveI : IsTotal Question (fun a b => questionScore s now b ≤ questionScore s now a) :=
      ⟨fun a b => le_total _ _⟩
    haveI : IsTrans Question (fun a b => questionScore s now b ≤ questionScore s now a) :=
      ⟨fun _ _ _ hab hbc => le_trans hbc hab⟩
    exact List.Pairwise.sublist ((List.take_sublist _ _).trans (List.drop_sublist _ _))
      (List.sorted_insertionSort _ _)
  · intro q hq
    rw [hdef] at hq
    have h3 := List.mem_of_mem_drop (List.mem_of_mem_take hq)
    have h4 := (List.mem_insertionSort _).mp h3
    exact ⟨(List.mem_filter.mp h4).1, (List.mem_filter.mp h4).2⟩

/-- C6 witness: the single question returned by the concrete trending listing
indeed comes from the store and passes the (empty) filters. -/
theorem getQuestions_trending_spec_witness :
    qPending0 ∈ storePending.questions ∧ matchesFilters noFilters qPending0 = true :=
  (getQuestions_trending_spec noFilters 20 0 5 storePending).2 qPending0
    (by rw [show getQuestions noFilters SortBy.trending 20 0 5 storePending = [qPending0]
          from rfl]
        exact List.mem_singleton_self _)

/-- C6 counterexample: with no status filter supplied, the trending listing
returns a `pending` question, refuting the claim that it returns only
questions with `status = approved`. -/
theorem getQuestions_trending_includes_pending :
    getQuestions noFilters SortBy.trending 20 0 5 storePending = [qPending0] ∧
    qPending0.status ≠ Status.approved :=
  ⟨rfl, by decide⟩

/-- C7 (amended): the trending score is strictly increasing in `views` and in
the approved-answer count for a fixed age, and strictly decreasing in age for
fixed engagement provided the engagement `views + 2 * approvedAnswerCount` is
non-zero (a zero-engagement question scores 0 at every age). -/
theorem trendScore_monotone :
    (∀ v v' a h : Nat, v < v' → trendScore v a h < trendScore v' a h) ∧
    (∀ v a a' h : Nat, a < a' → trendScore v a h < trendScore v a' h) ∧
    (∀ v a h h' : Nat, 0 < v + a * 2 → h < h' → trendScore v a h' < trendScore v a h) := by
  refine ⟨?_, ?_, ?_⟩
  · intro v v' a h hv
    unfold trendScore
    apply div_lt_div_of_pos_right
    · have : (v : ℚ) < v' := by exact_mod_cast hv
      linarith
    · positivity
  · intro v a a' h ha
    unfold trendScore
    apply div_lt_div_of_pos_right
    · have : (a : ℚ) < a' := by exact_mod_cast ha
      linarith
    · positivity
  · intro v a h h' hpos hh
    unfold trendScore
    apply div_lt_div_of_pos_left
    · have h0 : (0 : ℚ) < (v : ℚ) + (a : ℚ) * 2 := by exact_mod_cast hpos
      exact h0
    · positivity
    · have : (h : ℚ) < h' := by exact_mod_cast hh
      linarith

/-- C7 witness: concrete strict increases in views and approved answers, and a
concrete strict decrease in age at non-zero engagement. -/
theorem trendScore_monotone_witness :
    trendScore 1 0 0 < trendScore 2 0 0 ∧
    trendScore 1 0 0 < trendScore 1 1 0 ∧
    trendScore 1 0 1 < trendScore 1 0 0 :=
  ⟨trendScore_monotone.1 1 2 0 0 (by decide),
   trendScore_monotone.2.1 1 0 1 0 (by decide),
   trendScore_monotone.2.2 1 0 0 1 (by decide) (by decide)⟩

/-- C7 counterexample: at zero engagement the score is 0 at every age, so
increasing the age does not strictly decrease the score, refuting the
unconditional "strictly decreases" part of the claim. -/
theorem trendScore_age_not_strict :
    trendScore 0 0 1 = trendScore 0 0 0 ∧ ¬ trendScore 0 0 1 < trendScore 0 0 0 := by
  have h : trendScore 0 0 1 = trendScore 0 0 0 := by
    unfold trendScore
    norm_num
  exact ⟨h, by rw [h]; exact lt_irrefl _⟩

/-- C8 (confirmed): each of the five moderation operations is all-or-nothing
in the sequential model: when it reports an error the store (questions,
answers, activity log alike) is exactly the input store, and when it succeeds
the state change comes with exactly one appended activity-log entry. -/
theorem moderation_atomic (actor : Actor) (body : QuestionBody) (qid aid now : Nat)
    (st text : String) (s : Store) :
    atomicOn s (submitQuestion actor body now s) ∧
    atomicOn s (setQuestionStatus actor qid st s) ∧
    atomicOn s (deleteQuestion actor qid s) ∧
    atomicOn s (submitAnswer actor qid text now s) ∧
    atomicOn s (setAnswerStatus actor aid st s) :=
  ⟨submitQuestion_atomic actor body now s,
   setQuestionStatus_atomic actor qid st s,
   deleteQuestion_atomic actor qid s,
   submitAnswer_atomic actor qid text now s,
   setAnswerStatus_atomic actor aid st s⟩

/-- C8 witness: a forbidden delete and an invalid-status update each leave the
concrete store untouched. -/
theorem moderation_atomic_witness :
    (deleteQuestion userA 0 storeRejected).2 = storeRejected ∧
    (setQuestionStatus adminA 0 "bogus" storePending).2 = storePending :=
  ⟨(moderation_atomic userA bodyIbml 0 0 5 "approved" "x" storeRejected).2.2.1.1
      Err.forbidden rfl,
   (moderation_atomic adminA bodyIbml 0 0 5 "bogus" "x" storePending).2.1.1
      Err.invalidStatus rfl⟩

/-- C9 (confirmed): across any sequence of the exposed operations
(submitQuestion, setQuestionStatus, setAnswerStatus, the combined admin
question+answer path, viewQuestion), a question id below the allocator whose
records are all final stays final — `isFinal` never transitions from true to
false. -/
theorem isFinal_never_reverts (s : Store) (ops : List Op) (qid : Nat)
    (hlt : qid < s.nextId)
    (h : ∀ q ∈ s.questions, q.id = qid → q.isFinal ≠ 0) :
    ∀ q ∈ (runOps s ops).questions, q.id = qid → q.isFinal ≠ 0 := by
  induction ops generalizing s with
  | nil => exact h
  | cons op rest ih =>
    have hstep := applyOp_final_step s op qid hlt h
    exact ih (applyOp s op) hstep.1 hstep.2

/-- C9 witness: the concrete final question stays final after a view and a
status change to `rejected`. -/
theorem isFinal_never_reverts_witness :
    qFinalAfter ∈ (runOps storeFinal opsC9).questions ∧ qFinalAfter.isFinal ≠ 0 :=
  ⟨by decide,
   isFinal_never_reverts storeFinal opsC9 0 (by decide) (by decide) qFinalAfter
     (by decide) rfl⟩

/-- C10 (confirmed): the question handler reads the snapshot first and
increments the view counter afterwards — the caller receives the question with
the pre-call view count `n` while the stored record becomes `n + 1`. -/
theorem viewQuestion_reads_then_increments (qid : Nat) (s : Store) (q : Question)
    (hfind : s.questions.find? (fun r => decide (r.id = qid)) = some q) :
    (viewQuestion qid s).1 = Except.ok q ∧
    (viewQuestion qid s).2.questions.find? (fun r => decide (r.id = qid)) =
      some { q with views := q.views + 1 } := by
  unfold viewQuestion
  simp only [hfind]
  exact ⟨trivial, find?_views_update s.questions qid q hfind⟩

/-- C10 witness: viewing the concrete pending question returns it with 0 views
while the store afterwards holds it with 1 view. -/
theorem viewQuestion_reads_then_increments_witness :
    (viewQuestion 0 storePending).1 = Except.ok qPending0 ∧
    (viewQuestion 0 storePending).2.questions.find? (fun r => decide (r.id = 0)) =
      some { qPending0 with views := qPending0.views + 1 } :=
  viewQuestion_reads_then_increments 0 storePending qPending0 rfl
